import Mathlib

/-!
# journal-ai-wrapper.js: the upload widget and the results view

A shallow embedding of `class JournalUploader` and of `displayJournalAnalysis`
(src/journal-ai-wrapper.js).  The widget is single threaded: every method runs to
completion on the UI event loop, so a method is a function from the widget's state
to its next state.  What the browser supplies (generated ids, the clock, the outcome
of `fetch`) is an argument of the step that consumes it.

Conventions
* `file.size`, `options.maxFiles` and `options.maxSizeMB` are non negative integers
  (`Nat`); `maxSizeMB * 1024 * 1024` is then exact.
* A toast is recorded by the template that produced it and the values interpolated
  into it, not by the rendered text.
* `options.onProcessComplete` is a function that tells, for the argument it is called
  with, whether it returns or throws; its calls are recorded in `completed`.
* An exception thrown inside a method is part of the method's result: the state is
  what the statements before the throw made of it.
-/

namespace JournalAI

/-! ## Data -/

/-- A value produced by `response.json()`. Numbers are kept as integers: the code
never computes with them. -/
inductive Json where
  | null
  | bool (b : Bool)
  | num (n : Int)
  | str (s : String)
  | arr (items : List Json)
  | obj (fields : List (String × Json))

/-- A JavaScript value read from parsed JSON: `none` is `undefined`. -/
abbrev JsValue := Option Json

/-- Property read `v.key` on a parsed JSON value, for a key that is no built-in
property (`processed_pages`, `results`, `texts`): `null.key` throws a TypeError,
an object yields the stored value or `undefined`, any other value `undefined`. -/
def Json.getProp (v : Json) (key : String) : Except String JsValue :=
  match v with
  | .null => .error ("Cannot read properties of null (reading " ++ key ++ ")")
  | .obj fields => .ok (fields.lookup key)
  | _ => .ok none

mutual
/-- The string a template literal interpolates for a parsed JSON value: a string as it
is, a number in decimal, an array as its elements joined by commas, an object as
`[object Object]`. -/
def Json.toJsString : Json → String
  | .null => "null"
  | .bool b => if b then "true" else "false"
  | .num n => toString n
  | .str s => s
  | .arr items => Json.joinItems items
  | .obj _ => "[object Object]"
termination_by structural v => v
/-- The elements of an array joined by commas, as `Array.prototype.join` does it: a
`null` element contributes the empty string. -/
def Json.joinItems : List Json → String
  | [] => ""
  | item :: rest =>
    (match item with
      | .null => ""
      | v => Json.toJsString v) ++
    (match rest with
      | [] => ""
      | _ => ",") ++
    Json.joinItems rest
termination_by structural items => items
end

/-- The browser's `File`, as far as the widget reads it. -/
structure File where
  name : String
  type : String
  size : Nat
deriving DecidableEq, Repr

/-- A `File` object after `createPreview` has stored `file.id = fileId` on it:
every entry of `uploadQueue` is pushed and then immediately passed to `createPreview`. -/
structure QueuedFile where
  file : File
  id : String
deriving DecidableEq, Repr

/-- The resolved `this.options`. `onProcessComplete` is `none` when no callback is
set; a callback is given by the message of the error it throws for an argument, `none`
when it returns. -/
structure Options where
  maxFiles : Nat
  allowedTypes : List String
  maxSizeMB : Nat
  onProcessComplete : Option (Json → Option String)

/-- The `options` argument of the constructor: `none` is an absent key. -/
structure RawOptions where
  maxFiles : Option Nat := none
  allowedTypes : Option (List String) := none
  maxSizeMB : Option Nat := none
  onProcessComplete : Option (Json → Option String) := none

/-- The object literal of the constructor: each default is written first and
`...options` is spread after it, so a key that is present wins over its default. -/
def resolveOptions (options : RawOptions) : Options where
  maxFiles := options.maxFiles.getD 20
  allowedTypes := options.allowedTypes.getD ["image/jpeg", "image/png", "image/heic"]
  maxSizeMB := options.maxSizeMB.getD 10
  onProcessComplete := options.onProcessComplete

/-- The text templates passed to `showError` and `showSuccess`. -/
inductive Message where
  /-- `${file.name} is not a supported image type` -/
  | unsupportedType (name : String)
  /-- `${file.name} exceeds the maximum file size of ${maxSizeMB}MB` -/
  | tooLarge (name : String) (maxSizeMB : Nat)
  /-- `You can only upload up to ${maxFiles} files at once` -/
  | tooMany (maxFiles : Nat)
  /-- `'Upload failed: ' + error.message` -/
  | uploadFailed (errorMessage : String)
  /-- `Successfully processed ${data.processed_pages} journal pages!` -/
  | processed (pages : JsValue)

/-- The second argument of `showNotification`. -/
inductive NotificationType where
  | error
  | success
deriving DecidableEq, Repr

/-- A toast appended to `document.body` by `showNotification`. -/
structure Notification where
  message : Message
  type : NotificationType

/-- The process button: its `disabled` flag and its `textContent`. -/
structure Button where
  disabled : Bool
  textContent : String
deriving DecidableEq, Repr

/-- A value appended to a `FormData`: a queued file, or a string. -/
inductive FormValue where
  | file (f : QueuedFile)
  | text (s : String)
deriving DecidableEq, Repr

/-- A `FormData`: its entries in append order. -/
abbrev FormData := List (String × FormValue)

/-- The state of one `JournalUploader` and of what it has handed to the browser. -/
structure JournalUploader where
  options : Options
  uploadQueue : List QueuedFile
  processedFiles : List QueuedFile
  /-- The `data-file-id` of each `.preview-item` of the preview grid, in document order. -/
  previewGrid : List String
  processButton : Button
  /-- The toasts shown so far, oldest first. -/
  notifications : List Notification
  /-- The bodies of the `fetch` requests that have not settled yet, oldest first. -/
  inFlight : List FormData
  /-- The arguments `options.onProcessComplete` has been called with, oldest first. -/
  completed : List Json

/-! ## The widget's methods -/

/-- The constructor followed by `init()`: empty queues, an empty preview grid and a
disabled process button. -/
def JournalUploader.new (options : RawOptions) : JournalUploader where
  options := resolveOptions options
  uploadQueue := []
  processedFiles := []
  previewGrid := []
  processButton := { disabled := true, textContent := "Process Journal Pages" }
  notifications := []
  inFlight := []
  completed := []

/-- `showNotification(message, type)`; the timers that fade the toast out are left out. -/
def JournalUploader.showNotification (u : JournalUploader) (message : Message)
    (type : NotificationType) : JournalUploader :=
  { u with notifications := u.notifications ++ [{ message := message, type := type }] }

/-- `showError(message)`. -/
def JournalUploader.showError (u : JournalUploader) (message : Message) : JournalUploader :=
  u.showNotification message .error

/-- `showSuccess(message)`. -/
def JournalUploader.showSuccess (u : JournalUploader) (message : Message) : JournalUploader :=
  u.showNotification message .success

/-- The callback given to `files.filter` in `handleFiles`: the value it returns, and
the widget after the error it may have shown. -/
def JournalUploader.validate (u : JournalUploader) (file : File) : Bool × JournalUploader :=
  if !u.options.allowedTypes.contains file.type then
    (false, u.showError (.unsupportedType file.name))
  else if file.size > u.options.maxSizeMB * 1024 * 1024 then
    (false, u.showError (.tooLarge file.name u.options.maxSizeMB))
  else
    (true, u)

/-- `files.filter(callback)` of `handleFiles`: the callback runs once per file, in
order, and the files it returns true for are kept, in order. -/
def JournalUploader.filterValid (u : JournalUploader) : List File → List File × JournalUploader
  | [] => ([], u)
  | file :: rest =>
    let (keep, u1) := u.validate file
    let (valid, u2) := u1.filterValid rest
    (if keep then file :: valid else valid, u2)

/-- `createPreview(file)`: a loading placeholder tagged with the generated id is
appended to the preview grid and the id is stored on the file. The `FileReader`
callback only rewrites the placeholder's markup and is left out. -/
def JournalUploader.createPreview (u : JournalUploader) (fileId : String) : JournalUploader :=
  { u with previewGrid := u.previewGrid ++ [fileId] }

/-- The `validFiles.forEach` loop of `handleFiles`: push the file, then create its
preview. `ids k` is the id generated for the file at index `k` of `validFiles`. -/
def JournalUploader.addFiles (u : JournalUploader) (ids : Nat → String) :
    Nat → List File → JournalUploader
  | _, [] => u
  | k, file :: rest =>
    let u1 := { u with uploadQueue := u.uploadQueue ++ [QueuedFile.mk file (ids k)] }
    (u1.createPreview (ids k)).addFiles ids (k + 1) rest

/-- `handleFiles(fileList)`. -/
def JournalUploader.handleFiles (u : JournalUploader) (fileList : List File)
    (ids : Nat → String) : JournalUploader :=
  if fileList.length = 0 then u
  else
    let (validFiles, u1) := u.filterValid fileList
    if u1.uploadQueue.length + validFiles.length > u1.options.maxFiles then
      u1.showError (.tooMany u1.options.maxFiles)
    else
      let u2 := u1.addFiles ids 0 validFiles
      { u2 with processButton :=
          { u2.processButton with disabled := u2.uploadQueue.length == 0 } }

/-- Whether an id can be interpolated between the double quotes of the selector
`.preview-item[data-file-id="<id>"]` and leave it the attribute test for that id: it
holds no double quote, no backslash and no line break (line feed, form feed, carriage
return). Every id `createPreview` generates (letters, digits and `-`) is plain. -/
def plainId (fileId : String) : Bool :=
  fileId.toList.all (fun c =>
    c != Char.ofNat 34 && c != Char.ofNat 92 && c != Char.ofNat 10 && c != Char.ofNat 12 &&
      c != Char.ofNat 13)

/-- The first element a `querySelector` for `.preview-item[data-file-id="<id>"]` finds
is removed from the grid, if there is one; for a plain id the selector matches on
equality of the attribute. -/
def removePreview (fileId : String) : List String → List String
  | [] => []
  | p :: rest => if p = fileId then rest else p :: removePreview fileId rest

/-- `removeFile(fileId)`: the widget it leaves, and the message of the error it throws,
if any. The queue is filtered first. The selector of the `querySelector` call is built
by interpolating the id; for an id that is not plain the string is no longer the
attribute test for that id and `querySelector` is taken to reject it with a SyntaxError,
as it does for the id that is one double quote (`[data-file-id="""]`): the preview grid
and the process button are then left as they were. -/
def JournalUploader.removeFile (u : JournalUploader) (fileId : String) :
    JournalUploader × Option String :=
  let u1 := { u with uploadQueue := u.uploadQueue.filter (fun file => file.id != fileId) }
  if !plainId fileId then
    (u1, some "SyntaxError: Failed to execute querySelector: not a valid selector")
  else
    let u2 := { u1 with previewGrid := removePreview fileId u1.previewGrid }
    ({ u2 with processButton :=
        { u2.processButton with disabled := u2.uploadQueue.length == 0 } }, none)

/-- The `uploadQueue.forEach((file, index) => formData.append(...))` loop of
`processUploads`, from index `index` on. -/
def appendPages (formData : FormData) : Nat → List QueuedFile → FormData
  | _, [] => formData
  | index, file :: rest =>
    appendPages (formData ++ [("journal_page_" ++ toString index, .file file)]) (index + 1) rest

/-- `uploadToBackend(formData)`, up to the call of `fetch`: the request is in flight.
What its promise chain does when the request settles is `settle`. -/
def JournalUploader.uploadToBackend (u : JournalUploader) (formData : FormData) :
    JournalUploader :=
  { u with inFlight := u.inFlight ++ [formData] }

/-- `processUploads()`; `now` is `new Date().toISOString()`. -/
def JournalUploader.processUploads (u : JournalUploader) (now : String) : JournalUploader :=
  if u.uploadQueue.length == 0 then u
  else
    let u1 := { u with processButton := { disabled := true, textContent := "Processing..." } }
    let formData : FormData := []
    let formData := appendPages formData 0 u1.uploadQueue
    let formData := formData ++ [("page_count", .text (toString u1.uploadQueue.length))]
    let formData := formData ++ [("timestamp", .text now)]
    u1.uploadToBackend formData

/-- `handleSuccessfulUpload(data)`: the widget it leaves, and the message of the
error it throws, if any. Reading `data.processed_pages` throws when `data` is `null`;
the statements before it have run by then, the ones after it have not. The callback
`options.onProcessComplete` is called last, and an error it throws leaves the method. -/
def JournalUploader.handleSuccessfulUpload (u : JournalUploader) (data : Json) :
    JournalUploader × Option String :=
  let u1 := { u with
    processedFiles := u.processedFiles ++ u.uploadQueue
    uploadQueue := []
    previewGrid := []
    processButton := { disabled := true, textContent := "Process Journal Pages" } }
  match data.getProp "processed_pages" with
  | .error e => (u1, some e)
  | .ok pages =>
    let u2 := u1.showSuccess (.processed pages)
    match u2.options.onProcessComplete with
    | some callback => ({ u2 with completed := u2.completed ++ [data] }, callback data)
    | none => (u2, none)

/-- The handler given to `.catch` in `uploadToBackend`. -/
def JournalUploader.handleUploadError (u : JournalUploader) (errorMessage : String) :
    JournalUploader :=
  let u1 := u.showError (.uploadFailed errorMessage)
  { u1 with processButton := { disabled := false, textContent := "Process Journal Pages" } }

/-- How a `fetch` settles: it rejects (transport error), or it resolves with a
response whose `ok` flag is given and whose `json()` yields a value or rejects. -/
inductive FetchOutcome where
  | rejected (errorMessage : String)
  | response (ok : Bool) (json : Except String Json)

/-- The promise chain of `uploadToBackend`, run on the outcome of its `fetch`. -/
def JournalUploader.afterFetch (u : JournalUploader) : FetchOutcome → JournalUploader
  | .rejected e => u.handleUploadError e
  | .response false _ => u.handleUploadError "Network response was not ok"
  | .response true (.error e) => u.handleUploadError e
  | .response true (.ok data) =>
    match u.handleSuccessfulUpload data with
    | (u1, none) => u1
    | (u1, some e) => u1.handleUploadError e

/-- The request at position `k` of `inFlight` settles with `outcome`; nothing happens
when there is no such request. -/
def JournalUploader.settle (u : JournalUploader) (k : Nat) (outcome : FetchOutcome) :
    JournalUploader :=
  if k < u.inFlight.length then
    JournalUploader.afterFetch { u with inFlight := u.inFlight.eraseIdx k } outcome
  else u

/-- A click on the process button: a disabled button dispatches no click event, an
enabled one runs the listener `() => this.processUploads()`. -/
def JournalUploader.clickProcess (u : JournalUploader) (now : String) : JournalUploader :=
  if u.processButton.disabled then u else u.processUploads now

/-- What can happen to a widget: a method call, a click on the process button, or
the settling of a request in flight. An error a call throws goes to the caller; the
widget keeps the state the call left. -/
inductive Event where
  | handleFiles (fileList : List File) (ids : Nat → String)
  | removeFile (fileId : String)
  | processUploads (now : String)
  | clickProcess (now : String)
  | settle (k : Nat) (outcome : FetchOutcome)

/-- One step of the widget. -/
def JournalUploader.step (u : JournalUploader) : Event → JournalUploader
  | .handleFiles fileList ids => u.handleFiles fileList ids
  | .removeFile fileId => (u.removeFile fileId).1
  | .processUploads now => u.processUploads now
  | .clickProcess now => u.clickProcess now
  | .settle k outcome => u.settle k outcome

/-- The widget after a sequence of events, oldest first. -/
def JournalUploader.run (u : JournalUploader) (events : List Event) : JournalUploader :=
  events.foldl JournalUploader.step u

/-! ## The results view

`displayJournalAnalysis` and `populateTranscriptionTab` write markup into `innerHTML`,
so what the page holds is what the browser's HTML parser reads from the string. The
parser is modelled by its tokenizer: the content of an element is the list of its nodes
in document order, an element being the start tag that creates it. Left out of the
tokenizer are character references (an `&` is read as text), the raw text states of
`script`, `style`, `textarea` and `title`, and the repairs of the tree builder. -/

/-- JavaScript truthiness of a value read from parsed JSON. -/
def truthy : JsValue → Bool
  | none => false
  | some .null => false
  | some (.bool b) => b
  | some (.num n) => n != 0
  | some (.str s) => s != ""
  | some (.arr _) => true
  | some (.obj _) => true

/-- A node of parsed markup, in document order: an element (its start tag, with the
tokens of its `class` attribute and its other attributes), an end tag, or text. -/
inductive Node where
  | element (tagName : String) (classList : List String) (attributes : List (String × String))
  | endTag (tagName : String)
  | text (data : String)
deriving DecidableEq, Repr

/-- The tag the tokenizer is reading; names and values are held last character first. -/
structure PendingTag where
  closing : Bool
  name : List Char
  attributes : List (String × String)
deriving DecidableEq, Repr

/-- The states of the HTML tokenizer that the model keeps. -/
inductive TokenizerState where
  | data (text : List Char)
  | tagOpen (text : List Char)
  | endTagOpen (text : List Char)
  | tagName (tag : PendingTag)
  | beforeAttributeName (tag : PendingTag)
  | attributeName (tag : PendingTag) (name : List Char)
  | afterAttributeName (tag : PendingTag) (name : List Char)
  | beforeAttributeValue (tag : PendingTag) (name : List Char)
  | attributeValue (tag : PendingTag) (name : List Char) (quote : Option Char)
      (value : List Char)
  | afterAttributeValue (tag : PendingTag)
  | selfClosingStartTag (tag : PendingTag)
  | markupDeclaration (dashes : Nat)
  | bogusComment
  | comment (dashes : Nat)
  | commentEndBang

/-- ASCII whitespace: tab, line feed, form feed, carriage return, space. -/
def isHtmlSpace (c : Char) : Bool :=
  c == Char.ofNat 9 || c == Char.ofNat 10 || c == Char.ofNat 12 || c == Char.ofNat 13 ||
    c == Char.ofNat 32

/-- The words of a string split on ASCII whitespace; `word` is the word being read,
last character first. -/
def splitWords : List Char → List Char → List String
  | word, [] => if word.isEmpty then [] else [String.mk word.reverse]
  | word, c :: rest =>
    if isHtmlSpace c then
      (if word.isEmpty then [] else [String.mk word.reverse]) ++ splitWords [] rest
    else splitWords (c :: word) rest

/-- The text node for the characters read so far, if there are any. -/
def flushText (text : List Char) : List Node :=
  if text.isEmpty then [] else [.text (String.mk text.reverse)]

/-- The node a finished tag becomes. -/
def PendingTag.emit (tag : PendingTag) : List Node :=
  if tag.closing then [.endTag (String.mk tag.name.reverse)]
  else
    [.element (String.mk tag.name.reverse)
      (splitWords [] ((tag.attributes.lookup "class").getD "").toList)
      (tag.attributes.filter (fun a => a.1 != "class"))]

/-- A finished attribute is added to the tag unless the tag has one of that name. -/
def PendingTag.addAttribute (tag : PendingTag) (name value : List Char) : PendingTag :=
  if tag.attributes.any (fun a => a.1 == String.mk name.reverse) then tag
  else
    { tag with
      attributes := tag.attributes ++ [(String.mk name.reverse, String.mk value.reverse)] }

/-- The before-attribute-name state, which three other states hand a character to. -/
def beforeAttributeNameStep (tag : PendingTag) (c : Char) : TokenizerState × List Node :=
  if isHtmlSpace c then (.beforeAttributeName tag, [])
  else if c == Char.ofNat 47 then (.selfClosingStartTag tag, [])
  else if c == Char.ofNat 62 then (.data [], tag.emit)
  else (.attributeName tag [c.toLower], [])

/-- One character of input: the next state and the nodes emitted. The characters named
by number are `!` 33, `"` 34, `\x27` 39, `-` 45, `/` 47, `<` 60, `=` 61, `>` 62, `?` 63. -/
def tokenizerStep : TokenizerState → Char → TokenizerState × List Node
  | .data text, c =>
    if c == Char.ofNat 60 then (.tagOpen text, []) else (.data (c :: text), [])
  | .tagOpen text, c =>
    if c.isAlpha then
      (.tagName { closing := false, name := [c.toLower], attributes := [] }, flushText text)
    else if c == Char.ofNat 47 then (.endTagOpen text, [])
    else if c == Char.ofNat 33 then (.markupDeclaration 0, flushText text)
    else if c == Char.ofNat 63 then (.bogusComment, flushText text)
    else if c == Char.ofNat 60 then (.tagOpen (Char.ofNat 60 :: text), [])
    else (.data (c :: Char.ofNat 60 :: text), [])
  | .endTagOpen text, c =>
    if c.isAlpha then
      (.tagName { closing := true, name := [c.toLower], attributes := [] }, flushText text)
    else if c == Char.ofNat 62 then (.data text, [])
    else (.bogusComment, flushText text)
  | .tagName tag, c =>
    if isHtmlSpace c then (.beforeAttributeName tag, [])
    else if c == Char.ofNat 47 then (.selfClosingStartTag tag, [])
    else if c == Char.ofNat 62 then (.data [], tag.emit)
    else (.tagName { tag with name := c.toLower :: tag.name }, [])
  | .beforeAttributeName tag, c => beforeAttributeNameStep tag c
  | .attributeName tag name, c =>
    if isHtmlSpace c then (.afterAttributeName tag name, [])
    else if c == Char.ofNat 47 then (.selfClosingStartTag (tag.addAttribute name []), [])
    else if c == Char.ofNat 62 then (.data [], (tag.addAttribute name []).emit)
    else if c == Char.ofNat 61 then (.beforeAttributeValue tag name, [])
    else (.attributeName tag (c.toLower :: name), [])
  | .afterAttributeName tag name, c =>
    if isHtmlSpace c then (.afterAttributeName tag name, [])
    else if c == Char.ofNat 47 then (.selfClosingStartTag (tag.addAttribute name []), [])
    else if c == Char.ofNat 61 then (.beforeAttributeValue tag name, [])
    else if c == Char.ofNat 62 then (.data [], (tag.addAttribute name []).emit)
    else (.attributeName (tag.addAttribute name []) [c.toLower], [])
  | .beforeAttributeValue tag name, c =>
    if isHtmlSpace c then (.beforeAttributeValue tag name, [])
    else if c == Char.ofNat 34 || c == Char.ofNat 39 then
      (.attributeValue tag name (some c) [], [])
    else if c == Char.ofNat 62 then (.data [], (tag.addAttribute name []).emit)
    else (.attributeValue tag name none [c], [])
  | .attributeValue tag name (some quote) value, c =>
    if c == quote then (.afterAttributeValue (tag.addAttribute name value), [])
    else (.attributeValue tag name (some quote) (c :: value), [])
  | .attributeValue tag name none value, c =>
    if isHtmlSpace c then (.beforeAttributeName (tag.addAttribute name value), [])
    else if c == Char.ofNat 62 then (.data [], (tag.addAttribute name value).emit)
    else (.attributeValue tag name none (c :: value), [])
  | .afterAttributeValue tag, c => beforeAttributeNameStep tag c
  | .selfClosingStartTag tag, c => beforeAttributeNameStep tag c
  | .markupDeclaration dashes, c =>
    if c == Char.ofNat 45 then
      (if dashes == 1 then (.comment 2, []) else (.markupDeclaration 1, []))
    else if c == Char.ofNat 62 then (.data [], [])
    else (.bogusComment, [])
  | .bogusComment, c =>
    if c == Char.ofNat 62 then (.data [], []) else (.bogusComment, [])
  | .comment dashes, c =>
    if c == Char.ofNat 45 then (.comment (dashes + 1), [])
    else if c == Char.ofNat 62 && decide (2 ≤ dashes) then (.data [], [])
    else if c == Char.ofNat 33 && decide (2 ≤ dashes) then (.commentEndBang, [])
    else (.comment 0, [])
  | .commentEndBang, c =>
    if c == Char.ofNat 45 then (.comment 1, [])
    else if c == Char.ofNat 62 then (.data [], [])
    else (.comment 0, [])

/-- The end of the input: pending text is emitted, a tag that was not finished is not. -/
def tokenizerEnd : TokenizerState → List Node
  | .data text => flushText text
  | .tagOpen text => flushText (Char.ofNat 60 :: text)
  | .endTagOpen text => flushText (Char.ofNat 47 :: Char.ofNat 60 :: text)
  | _ => []

/-- The tokenizer run from a state over the rest of the input. -/
def parseFrom : TokenizerState → List Char → List Node
  | state, [] => tokenizerEnd state
  | state, c :: rest =>
    let (next, emitted) := tokenizerStep state c
    emitted ++ parseFrom next rest

/-- The nodes the browser reads from a markup string assigned to `innerHTML`. -/
def parseHtml (html : String) : List Node :=
  parseFrom (.data []) html.toList

/-- `element.classList.contains(name)`; false for a node that is no element. -/
def Node.hasClass (node : Node) (name : String) : Bool :=
  match node with
  | .element _ classList _ => classList.contains name
  | _ => false

/-- `element.classList.add(name)`. -/
def Node.addClass (name : String) : Node → Node
  | .element tagName classList attributes =>
    .element tagName (if classList.contains name then classList else classList ++ [name])
      attributes
  | node => node

/-- `element.classList.remove(name)`. -/
def Node.removeClass (name : String) : Node → Node
  | .element tagName classList attributes =>
    .element tagName (classList.filter (fun c => c != name)) attributes
  | node => node

/-- `element.getAttribute(name)` for an attribute other than `class`. -/
def Node.getAttribute (node : Node) (name : String) : Option String :=
  match node with
  | .element _ _ attributes => attributes.lookup name
  | _ => none

/-- `element.dataset.tab` as `getElementById` receives it: the value of `data-tab`, or
the string `undefined` when the attribute is missing. -/
def Node.dataTab (node : Node) : String :=
  (node.getAttribute "data-tab").getD "undefined"

/-- `document.getElementById(id)` on the nodes of the document: the position of the
first element, in document order, whose `id` attribute is `id`; no element has the
empty id. -/
def getElementById (nodes : List Node) (id : String) : Option Nat :=
  if id == "" then none
  else nodes.findIdx? (fun node => node.getAttribute "id" == some id)

/-- The node at position `pos` replaced by `f` of it. -/
def modifyAt (pos : Nat) (f : Node → Node) (nodes : List Node) : List Node :=
  nodes.enum.map (fun q => if q.1 == pos then f q.2 else q.2)

/-- The positions of the elements that carry a class, in document order:
`querySelectorAll('.' + name)` on the container. -/
def elementsWithClass (name : String) (nodes : List Node) : List Nat :=
  (nodes.enum.filter (fun q => q.2.hasClass name)).map (fun q => q.1)

/-- The elements that have no content and no end tag. -/
def isVoidElement (tagName : String) : Bool :=
  ["area", "base", "br", "col", "embed", "hr", "img", "input", "link", "meta", "source",
    "track", "wbr"].contains tagName

/-- The nodes from the end tag on that closes an element whose content starts the list;
`depth` counts the elements opened inside it and not closed yet. -/
def afterContent : Nat → List Node → List Node
  | _, [] => []
  | depth, .endTag tagName :: rest =>
    if depth = 0 then .endTag tagName :: rest else afterContent (depth - 1) rest
  | depth, .element tagName _ _ :: rest =>
    if isVoidElement tagName then afterContent depth rest else afterContent (depth + 1) rest
  | depth, .text _ :: rest => afterContent depth rest

/-- The statement `element.innerHTML = html` for the element at position `pos`: its
content is replaced by the nodes read from `html`. -/
def setInnerHTML (nodes : List Node) (pos : Nat) (html : String) : List Node :=
  nodes.take (pos + 1) ++ parseHtml html ++ afterContent 0 (nodes.drop (pos + 1))

/-- The page that shows the results: the nodes of the document, in document order, up
to the end of the content of `#journal-results-container`; the number of nodes that
precede that content (the start tag of the container is the last of them); and the
positions of the elements in the list `tabs` that the click listeners hold. The nodes
that follow the container are left out: every id the code looks up is carried by an
element of `tabsHtml`, so a lookup never gets past the container. -/
structure ResultsView where
  nodes : List Node
  container : Nat
  tabs : List Nat
deriving DecidableEq, Repr

/-- Where a node is after `element.innerHTML = html` on the element at position `pos`
changed the number of nodes from `oldLength` to `newLength`: the nodes that follow the
element's content move, the ones up to the element stay. -/
def shiftPosition (pos oldLength newLength : Nat) (p : Nat) : Nat :=
  if p ≤ pos then p else p + newLength - oldLength

/-- The template literal `tabsHtml` of `displayJournalAnalysis`. -/
def tabsHtml : String :=
  "\n" ++
  "    <div class=\"tabs\">\n" ++
  "      <button class=\"tab active\" data-tab=\"transcription\">Transcription</button>\n" ++
  "      <button class=\"tab\" data-tab=\"themes\">Themes & Topics</button>\n" ++
  "      <button class=\"tab\" data-tab=\"insights\">Insights</button>\n" ++
  "      <button class=\"tab\" data-tab=\"organization\">Organization</button>\n" ++
  "    </div>\n" ++
  "    <div class=\"tab-content\">\n" ++
  "      <div class=\"tab-pane active\" id=\"transcription\"></div>\n" ++
  "      <div class=\"tab-pane\" id=\"themes\"></div>\n" ++
  "      <div class=\"tab-pane\" id=\"insights\"></div>\n" ++
  "      <div class=\"tab-pane\" id=\"organization\"></div>\n" ++
  "    </div>\n" ++
  "  "

/-- The `texts.forEach((text, index) => html += ...)` loop of
`populateTranscriptionTab`, from index `index` on: the text is interpolated into the
template literal as it is. -/
def appendTranscriptions (html : String) : Nat → List Json → String
  | _, [] => html
  | index, text :: rest =>
    appendTranscriptions
      (html ++ ("\n      <div class=\"transcription-item\">\n        <h3>Page " ++
        toString (index + 1) ++
        "</h3>\n        <div class=\"transcription-text\">" ++
        text.toJsString ++
        "</div>\n      </div>\n    "))
      (index + 1) rest

/-- `populateTranscriptionTab(data)`: the page it leaves and the message of the error
it throws, if any. Reading `data.results` throws when `data` is `null`, and
`texts.forEach` throws when `texts` is truthy and no array. The element written to is
the one `document.getElementById('transcription')` finds in the whole document. -/
def populateTranscriptionTab (v : ResultsView) (data : Json) : ResultsView × Option String :=
  match getElementById v.nodes "transcription" with
  | none => (v, none)
  | some transcriptionTab =>
    match data.getProp "results" with
    | .error e => (v, some e)
    | .ok results =>
      if !truthy results then (v, none)
      else
        match results with
        | none => (v, none)
        | some r =>
          match r.getProp "texts" with
          | .error e => (v, some e)
          | .ok texts =>
            if !truthy texts then (v, none)
            else
              match texts with
              | some (.arr items) =>
                let html := "<h2>Transcribed Journal Pages</h2>"
                let html := appendTranscriptions html 0 items
                let nodes := setInnerHTML v.nodes transcriptionTab html
                let shift := shiftPosition transcriptionTab v.nodes.length nodes.length
                ({ nodes := nodes, container := shift v.container, tabs := v.tabs.map shift },
                  none)
              | _ => (v, some "data.results.texts.forEach is not a function")

/-- `displayJournalAnalysis(data)`. `page` is `none` when the document holds no
`#journal-results-container`; otherwise it is the nodes of the document that precede
the content of the container, the start tag of the container being the last of them.
The result is the page after the call (`none` when there is no container) and the
message of the error thrown, if any. The old content of the container is replaced by
the nodes of `tabsHtml`, and the click listeners are attached to the elements
`resultsContainer.querySelectorAll('.tab')` finds then. The bodies of
`populateThemesTab`, `populateInsightsTab` and `populateOrganizationTab` are empty. -/
def displayJournalAnalysis (page : Option (List Node)) (data : Json) :
    Option ResultsView × Option String :=
  match page with
  | none => (none, none)
  | some before =>
    let nodes := before ++ parseHtml tabsHtml
    let tabs := (elementsWithClass "tab" nodes).filter (fun p => before.length ≤ p)
    let (v, thrown) :=
      populateTranscriptionTab { nodes := nodes, container := before.length, tabs := tabs } data
    (some v, thrown)

/-- The click listener of the tab at position `k` of the list `tabs`; a position that
holds no tab has no listener. `resultsContainer.querySelectorAll('.tab-pane')` is
evaluated at the click and finds the elements of the container that carry the class;
`document.getElementById` searches the whole document. -/
def ResultsView.clickTab (v : ResultsView) (k : Nat) : ResultsView :=
  match v.tabs[k]? with
  | none => v
  | some tab =>
    let nodes := v.nodes.enum.map
      (fun q => if v.tabs.contains q.1 then q.2.removeClass "active" else q.2)
    let nodes := modifyAt tab (Node.addClass "active") nodes
    let nodes := nodes.enum.map
      (fun q =>
        if v.container ≤ q.1 && q.2.hasClass "tab-pane" then q.2.removeClass "active"
        else q.2)
    let targetPane :=
      match nodes[tab]? with
      | some node => getElementById nodes node.dataTab
      | none => none
    match targetPane with
    | some pane => { v with nodes := modifyAt pane (Node.addClass "active") nodes }
    | none => { v with nodes := nodes }

/-- The view after a sequence of clicks on tabs, given by position, oldest first. -/
def ResultsView.clicks (v : ResultsView) (ks : List (Fin 4)) : ResultsView :=
  ks.foldl (fun w k => w.clickTab k.val) v

/-- The callback the file itself passes as `onProcessComplete`, on a given page: it
logs the data and calls `displayJournalAnalysis(data)`. It throws what
`displayJournalAnalysis` throws. -/
def usageCallback (page : Option (List Node)) (data : Json) : Option String :=
  (displayJournalAnalysis page data).2

/-! ## The specification's vocabulary -/

/-- The specification's validity of a file: its MIME type is one of `allowedTypes`
and its size is at most `maxSizeMB * 1024 * 1024` bytes. -/
def PassesValidation (options : Options) (file : File) : Prop :=
  file.type ∈ options.allowedTypes ∧ file.size ≤ options.maxSizeMB * 1024 * 1024

instance (options : Options) (file : File) : Decidable (PassesValidation options file) := by
  unfold PassesValidation
  exact inferInstance

/-- For each element of the view that carries the class `tab-pane`, in document order:
its position, its id and whether it carries the class `active`. -/
def paneMarks (v : ResultsView) : List (Nat × Option String × Bool) :=
  (v.nodes.enum.filter (fun q => q.2.hasClass "tab-pane")).map
    (fun q => (q.1, q.2.getAttribute "id", q.2.hasClass "active"))

/-- For each tab the listeners hold, in order: its `data-tab` and whether it carries the
class `active`. -/
def tabMarks (v : ResultsView) : List (String × Bool) :=
  v.tabs.filterMap (fun tab => v.nodes[tab]?.map (fun node => (node.dataTab, node.hasClass "active")))

/-- The files of a batch that pass the specification's validation, in batch order. -/
def validOf (options : Options) (batch : List File) : List File :=
  batch.filter (fun file => decide (PassesValidation options file))

/-- The accepted files of a batch as queue entries: the file at index `k` of the
accepted files carries the id generated for it. -/
def tagged (ids : Nat → String) (files : List File) : List QueuedFile :=
  files.enum.map (fun p => QueuedFile.mk p.2 (ids p.1))

/-! ## Sample inputs -/

/-- The configuration of the specification's scenarios. -/
def pngOptions : RawOptions :=
  { maxFiles := some 2, allowedTypes := some ["image/png"], maxSizeMB := some 1 }

/-- A PNG of 0.5 MB. -/
def smallPng : File := { name := "small.png", type := "image/png", size := 524288 }

/-- A PNG of 2 MB. -/
def bigPng : File := { name := "big.png", type := "image/png", size := 2097152 }

/-- A PNG of exactly 1 MB. -/
def limitPng : File := { name := "limit.png", type := "image/png", size := 1048576 }

/-- Ids for the files of a batch: `file-a0`, `file-a1`, ... -/
def idsA : Nat → String := fun k => "file-a" ++ toString k

/-- Ids for the files of another batch: `file-b0`, `file-b1`, ... -/
def idsB : Nat → String := fun k => "file-b" ++ toString k

/-- A fresh widget with the scenarios' configuration. -/
def freshWidget : JournalUploader := JournalUploader.new pngOptions

/-- The widget after two PNGs were added: its queue is full. -/
def fullWidget : JournalUploader := freshWidget.handleFiles [smallPng, limitPng] idsA

/-- The user adds a file, clicks the process button, adds a second file while the
request is pending, and clicks the process button again. -/
def resubmitDuringRequest : List Event :=
  [ .handleFiles [smallPng] idsA,
    .clickProcess "2024-01-01T00:00:00.000Z",
    .handleFiles [limitPng] idsB,
    .clickProcess "2024-01-01T00:00:01.000Z" ]

/-- The user adds two files, clicks the process button, removes the first file while
the request is pending, and clicks the process button again. -/
def resubmitAfterRemove : List Event :=
  [ .handleFiles [smallPng, limitPng] idsA,
    .clickProcess "2024-01-01T00:00:00.000Z",
    .removeFile "file-a0",
    .clickProcess "2024-01-01T00:00:01.000Z" ]

/-- A page whose results container is preceded by a heading. -/
def samplePage : Option (List Node) :=
  some [Node.element "h1" [] [], Node.text "Journal", Node.endTag "h1",
    Node.element "div" [] [("id", "journal-results-container")]]

/-- The success response of the specification's scenario: `processed_pages` is 1 and
`results.texts` is `["hello"]`. -/
def helloResponse : Json :=
  .obj [("processed_pages", .num 1), ("results", .obj [("texts", .arr [.str "hello"])])]

/-- A response whose only text is the markup of a pane:
`<div class="tab-pane active" id="themes">x</div>`. -/
def injectedPaneResponse : Json :=
  .obj [("processed_pages", .num 1),
    ("results", .obj [("texts",
      .arr [.str "<div class=\"tab-pane active\" id=\"themes\">x</div>"])])]

/-- A response whose only text holds the markup of a transcription item:
`x<div class="transcription-item">y</div>`. -/
def nestedItemResponse : Json :=
  .obj [("processed_pages", .num 1),
    ("results", .obj [("texts", .arr [.str "x<div class=\"transcription-item\">y</div>"])])]

/-- A response whose only text is `<b>hi</b>`. -/
def boldResponse : Json :=
  .obj [("processed_pages", .num 1), ("results", .obj [("texts", .arr [.str "<b>hi</b>"])])]

/-- A response without `results`. -/
def noResultsResponse : Json := .obj [("processed_pages", .num 1)]

/-- A response whose `results` holds no `texts`. -/
def noTextsResponse : Json :=
  .obj [("processed_pages", .num 1), ("results", .obj [("analysis", .obj [])])]

/-- The view `displayJournalAnalysis` builds for `helloResponse`. -/
def helloView : ResultsView :=
  ((displayJournalAnalysis samplePage helloResponse).1).getD
    { nodes := [], container := 0, tabs := [] }

/-- The id that is one double quote. -/
def quoteId : String := String.singleton (Char.ofNat 34)

/-- A widget like `fullWidget` whose `onProcessComplete` is set. -/
def fullWidgetWithCallback : JournalUploader :=
  (JournalUploader.new { pngOptions with onProcessComplete := some (usageCallback samplePage) }).handleFiles
    [smallPng, limitPng] idsA

/-! ## Lemmas on validation and on adding -/

theorem validate_fst (u : JournalUploader) (file : File) :
    (u.validate file).1 = decide (PassesValidation u.options file) := by
  unfold JournalUploader.validate PassesValidation
  by_cases ht : file.type ∈ u.options.allowedTypes
  · by_cases hs : file.size ≤ u.options.maxSizeMB * 1024 * 1024
    · have hs2 : ¬ file.size > u.options.maxSizeMB * 1024 * 1024 := by omega
      simp [ht, hs, hs2]
    · have hs2 : file.size > u.options.maxSizeMB * 1024 * 1024 := by omega
      simp [ht, hs, hs2]
  · simp [ht]

theorem validate_snd (u : JournalUploader) (file : File) :
    ∃ shown, (u.validate file).2 = { u with notifications := u.notifications ++ shown } := by
  unfold JournalUploader.validate
  split
  · exact ⟨_, rfl⟩
  · split
    · exact ⟨_, rfl⟩
    · exact ⟨[], by simp⟩

theorem validate_cases (u : JournalUploader) (file : File) :
    (PassesValidation u.options file → u.validate file = (true, u)) ∧
    (¬ PassesValidation u.options file → ∃ m, u.validate file = (false, u.showError m)) := by
  unfold JournalUploader.validate PassesValidation
  by_cases ht : file.type ∈ u.options.allowedTypes
  · by_cases hs : file.size ≤ u.options.maxSizeMB * 1024 * 1024
    · have hs2 : ¬ file.size > u.options.maxSizeMB * 1024 * 1024 := by omega
      simp [ht, hs, hs2]
    · have hs2 : file.size > u.options.maxSizeMB * 1024 * 1024 := by omega
      simp [ht, hs, hs2]
  · simp [ht]

theorem filterValid_fst (u : JournalUploader) (files : List File) :
    (u.filterValid files).1 = validOf u.options files := by
  induction files generalizing u with
  | nil => rfl
  | cons file rest ih =>
    obtain ⟨shown, hs⟩ := validate_snd u file
    have ho : (u.validate file).2.options = u.options := by rw [hs]
    simp only [JournalUploader.filterValid, validOf, List.filter_cons]
    rw [ih, ho, validate_fst]
    by_cases hp : PassesValidation u.options file <;> simp [hp, validOf]

theorem filterValid_snd (u : JournalUploader) (files : List File) :
    ∃ shown, (u.filterValid files).2 = { u with notifications := u.notifications ++ shown } := by
  induction files generalizing u with
  | nil => exact ⟨[], by simp [JournalUploader.filterValid]⟩
  | cons file rest ih =>
    obtain ⟨shown, hs⟩ := validate_snd u file
    obtain ⟨shown2, hs2⟩ := ih (u.validate file).2
    refine ⟨shown ++ shown2, ?_⟩
    simp only [JournalUploader.filterValid]
    rw [hs2, hs]
    simp

theorem addFiles_eq (u : JournalUploader) (ids : Nat → String) (k : Nat) (files : List File) :
    u.addFiles ids k files =
      { u with
        uploadQueue := u.uploadQueue ++ (files.enumFrom k).map (fun p => QueuedFile.mk p.2 (ids p.1))
        previewGrid := u.previewGrid ++ (files.enumFrom k).map (fun p => ids p.1) } := by
  induction files generalizing u k with
  | nil => simp [JournalUploader.addFiles]
  | cons file rest ih =>
    simp only [JournalUploader.addFiles, JournalUploader.createPreview]
    rw [ih]
    simp [List.enumFrom]

theorem handleFiles_nil (u : JournalUploader) (ids : Nat → String) :
    u.handleFiles [] ids = u := by
  simp [JournalUploader.handleFiles]

theorem handleFiles_eq (u : JournalUploader) (batch : List File) (ids : Nat → String)
    (hb : batch ≠ []) :
    ∃ shown,
      u.handleFiles batch ids =
        if u.uploadQueue.length + (validOf u.options batch).length > u.options.maxFiles then
          { u with notifications := u.notifications ++ shown }
        else
          { u with
            uploadQueue := u.uploadQueue ++ tagged ids (validOf u.options batch)
            previewGrid := u.previewGrid ++ (tagged ids (validOf u.options batch)).map QueuedFile.id
            notifications := u.notifications ++ shown
            processButton :=
              { u.processButton with
                disabled :=
                  (u.uploadQueue ++ tagged ids (validOf u.options batch)).length == 0 } } := by
  have hlen : ¬ batch.length = 0 := fun h => hb (List.length_eq_zero.mp h)
  obtain ⟨shown, hs⟩ := filterValid_snd u batch
  have hv := filterValid_fst u batch
  unfold JournalUploader.handleFiles
  simp only [hlen, if_false]
  rw [show u.filterValid batch = ((u.filterValid batch).1, (u.filterValid batch).2) from rfl]
  simp only [hv, hs]
  by_cases hq : u.uploadQueue.length + (validOf u.options batch).length > u.options.maxFiles
  · refine ⟨shown ++ [Notification.mk (.tooMany u.options.maxFiles) .error], ?_⟩
    simp [hq, JournalUploader.showError, JournalUploader.showNotification]
  · refine ⟨shown, ?_⟩
    simp only [hq, if_false]
    rw [addFiles_eq]
    simp [tagged, List.enum, Function.comp_def]

/-! ## Adding files -/

/-- C1. Batch-quota atomicity of `handleFiles`: when the queue's length plus the number
of files of the batch that pass validation exceeds `maxFiles`, the call leaves the
upload queue exactly as it was; the preview grid and the process button are left
untouched as well, so no file of the batch has been added. -/
theorem handleFiles_quota_atomic (u : JournalUploader) (batch : List File) (ids : Nat → String)
    (h : u.uploadQueue.length + (validOf u.options batch).length > u.options.maxFiles) :
    (u.handleFiles batch ids).uploadQueue = u.uploadQueue ∧
    (u.handleFiles batch ids).previewGrid = u.previewGrid ∧
    (u.handleFiles batch ids).processButton = u.processButton := by
  by_cases hb : batch = []
  · subst hb
    rw [handleFiles_nil]
    exact ⟨rfl, rfl, rfl⟩
  · obtain ⟨shown, hs⟩ := handleFiles_eq u batch ids hb
    rw [hs, if_pos h]
    exact ⟨rfl, rfl, rfl⟩

/-- C1 at the scenario of the specification: the queue holds 2 files with `maxFiles = 2`,
and one more PNG within the size limit is added. -/
theorem handleFiles_quota_atomic_witness :
    fullWidget.uploadQueue.length = 2 ∧
    (fullWidget.handleFiles [smallPng] idsB).uploadQueue = fullWidget.uploadQueue ∧
    (fullWidget.handleFiles [smallPng] idsB).previewGrid = fullWidget.previewGrid ∧
    (fullWidget.handleFiles [smallPng] idsB).processButton = fullWidget.processButton :=
  ⟨by decide, handleFiles_quota_atomic fullWidget [smallPng] idsB (by decide)⟩

/-- C2. Adding within the quota: when the queue's length plus the number of valid files
of the batch is at most `maxFiles`, the queue after `handleFiles` is the old queue
followed by the valid files of the batch, in batch order, each carrying the id generated
for it; the files themselves are exactly the files of the batch whose type is allowed and
whose size is at most `maxSizeMB * 1024 * 1024`, whatever other files the batch holds. -/
theorem handleFiles_within_quota (u : JournalUploader) (batch : List File) (ids : Nat → String)
    (h : u.uploadQueue.length + (validOf u.options batch).length ≤ u.options.maxFiles) :
    (u.handleFiles batch ids).uploadQueue =
      u.uploadQueue ++ tagged ids (validOf u.options batch) ∧
    (u.handleFiles batch ids).uploadQueue.map QueuedFile.file =
      u.uploadQueue.map QueuedFile.file ++
        batch.filter (fun file =>
          decide (file.type ∈ u.options.allowedTypes ∧
            file.size ≤ u.options.maxSizeMB * 1024 * 1024)) := by
  have hmap : ∀ files : List File, (tagged ids files).map QueuedFile.file = files := by
    intro files
    simp [tagged, Function.comp_def, List.enum]
  have hfilter : batch.filter (fun file =>
      decide (file.type ∈ u.options.allowedTypes ∧
        file.size ≤ u.options.maxSizeMB * 1024 * 1024)) = validOf u.options batch := rfl
  rw [hfilter]
  by_cases hb : batch = []
  · subst hb
    rw [handleFiles_nil]
    simp [validOf, tagged]
  · obtain ⟨shown, hs⟩ := handleFiles_eq u batch ids hb
    have hq : ¬ u.uploadQueue.length + (validOf u.options batch).length > u.options.maxFiles := by
      omega
    rw [hs, if_neg hq]
    refine ⟨rfl, ?_⟩
    simp [hmap]

/-- C2 at the scenario of the specification: a 0.5 MB PNG and a 2 MB PNG are added to an
empty queue with a limit of 1 MB; only the first one is queued. -/
theorem handleFiles_within_quota_witness :
    (freshWidget.handleFiles [smallPng, bigPng] idsB).uploadQueue =
      freshWidget.uploadQueue ++ tagged idsB (validOf freshWidget.options [smallPng, bigPng]) ∧
    (freshWidget.handleFiles [smallPng, bigPng] idsB).uploadQueue.map QueuedFile.file =
      freshWidget.uploadQueue.map QueuedFile.file ++
        [smallPng, bigPng].filter (fun file =>
          decide (file.type ∈ freshWidget.options.allowedTypes ∧
            file.size ≤ freshWidget.options.maxSizeMB * 1024 * 1024)) :=
  handleFiles_within_quota freshWidget [smallPng, bigPng] idsB (by decide)

/-- C3. The validation step of `handleFiles` rejects a file exactly when its MIME type is
not in `allowedTypes` or its size is greater than `maxSizeMB * 1024 * 1024`: in that
case, and only then, the callback returns false, an error toast is shown for the file and
the file is missing from the accepted files of any batch. A file of exactly the limit
size is accepted whenever its type is allowed. -/
theorem validate_rejects_iff (u : JournalUploader) (file : File) :
    ((u.validate file).1 = false ↔
      (file.type ∉ u.options.allowedTypes ∨ file.size > u.options.maxSizeMB * 1024 * 1024)) ∧
    ((∃ m, (u.validate file).2 = u.showError m) ↔
      (file.type ∉ u.options.allowedTypes ∨ file.size > u.options.maxSizeMB * 1024 * 1024)) ∧
    ((u.validate file).2 = u ↔
      ¬ (file.type ∉ u.options.allowedTypes ∨ file.size > u.options.maxSizeMB * 1024 * 1024)) ∧
    (∀ batch : List File, file ∈ (u.filterValid batch).1 ↔
      (file ∈ batch ∧
        ¬ (file.type ∉ u.options.allowedTypes ∨
          file.size > u.options.maxSizeMB * 1024 * 1024))) ∧
    ((u.validate { file with size := u.options.maxSizeMB * 1024 * 1024 }).1 =
      decide (file.type ∈ u.options.allowedTypes)) := by
  have hne : ∀ m, u.showError m ≠ u := by
    intro m hm
    have hl := congrArg (fun w => w.notifications.length) hm
    simp [JournalUploader.showError, JournalUploader.showNotification] at hl
  have hcond : (file.type ∉ u.options.allowedTypes ∨
      file.size > u.options.maxSizeMB * 1024 * 1024) ↔ ¬ PassesValidation u.options file := by
    unfold PassesValidation
    constructor
    · rintro (h | h) ⟨h1, h2⟩
      · exact h h1
      · omega
    · intro h
      by_cases h1 : file.type ∈ u.options.allowedTypes
      · right
        by_contra h2
        exact h ⟨h1, by omega⟩
      · exact Or.inl h1
  rw [hcond]
  obtain ⟨hpass, hfail⟩ := validate_cases u file
  refine ⟨?_, ?_, ?_, ?_, ?_⟩
  · rw [validate_fst]
    simp
  · constructor
    · rintro ⟨m, hm⟩ hp
      rw [hpass hp] at hm
      exact hne m hm.symm
    · intro hp
      obtain ⟨m, hm⟩ := hfail hp
      exact ⟨m, by rw [hm]⟩
  · constructor
    · intro h hp
      obtain ⟨m, hm⟩ := hfail hp
      rw [hm] at h
      exact hne m h
    · intro hp
      rw [hpass (not_not.mp hp)]
  · intro batch
    rw [filterValid_fst]
    simp [validOf]
  · rw [validate_fst]
    simp [PassesValidation]

/-! ## The queue never outgrows `maxFiles` -/

theorem removeFile_queue (u : JournalUploader) (fileId : String) :
    (u.removeFile fileId).1.uploadQueue =
      u.uploadQueue.filter (fun file => file.id != fileId) ∧
    (u.removeFile fileId).1.options = u.options := by
  unfold JournalUploader.removeFile
  split
  · exact ⟨rfl, rfl⟩
  · exact ⟨rfl, rfl⟩

theorem removeFile_queue_length_le (u : JournalUploader) (fileId : String) :
    (u.removeFile fileId).1.uploadQueue.length ≤ u.uploadQueue.length := by
  rw [(removeFile_queue u fileId).1]
  exact List.length_filter_le _ _

theorem processUploads_queue (u : JournalUploader) (now : String) :
    (u.processUploads now).uploadQueue = u.uploadQueue ∧
    (u.processUploads now).options = u.options := by
  unfold JournalUploader.processUploads
  split
  · exact ⟨rfl, rfl⟩
  · exact ⟨rfl, rfl⟩

theorem handleUploadError_frame (u : JournalUploader) (e : String) :
    (u.handleUploadError e).uploadQueue = u.uploadQueue ∧
    (u.handleUploadError e).options = u.options ∧
    (u.handleUploadError e).completed = u.completed ∧
    (u.handleUploadError e).processedFiles = u.processedFiles :=
  ⟨rfl, rfl, rfl, rfl⟩

theorem handleSuccessfulUpload_frame (u : JournalUploader) (data : Json) :
    (u.handleSuccessfulUpload data).1.uploadQueue = [] ∧
    (u.handleSuccessfulUpload data).1.options = u.options := by
  unfold JournalUploader.handleSuccessfulUpload
  cases hp : data.getProp "processed_pages" with
  | error e => exact ⟨rfl, rfl⟩
  | ok pages =>
    cases hc : u.options.onProcessComplete with
    | none => simp [hc, JournalUploader.showSuccess, JournalUploader.showNotification]
    | some callback => simp [hc, JournalUploader.showSuccess, JournalUploader.showNotification]

theorem afterFetch_frame (u : JournalUploader) (outcome : FetchOutcome) :
    (u.afterFetch outcome).options = u.options ∧
    ((u.afterFetch outcome).uploadQueue = u.uploadQueue ∨
      (u.afterFetch outcome).uploadQueue = []) := by
  cases outcome with
  | rejected e => exact ⟨rfl, Or.inl rfl⟩
  | response ok json =>
    cases ok with
    | false => exact ⟨rfl, Or.inl rfl⟩
    | true =>
      cases json with
      | error e => exact ⟨rfl, Or.inl rfl⟩
      | ok data =>
        obtain ⟨hq, ho⟩ := handleSuccessfulUpload_frame u data
        simp only [JournalUploader.afterFetch]
        cases hr : (u.handleSuccessfulUpload data) with
        | mk u1 thrown =>
          rw [hr] at hq ho
          cases thrown with
          | none => exact ⟨ho, Or.inr hq⟩
          | some e => exact ⟨ho, Or.inr hq⟩

theorem step_invariant (u : JournalUploader) (event : Event)
    (h : u.uploadQueue.length ≤ u.options.maxFiles) :
    (u.step event).options = u.options ∧
    (u.step event).uploadQueue.length ≤ u.options.maxFiles := by
  cases event with
  | handleFiles batch ids =>
    simp only [JournalUploader.step]
    by_cases hb : batch = []
    · subst hb
      rw [handleFiles_nil]
      exact ⟨rfl, h⟩
    · obtain ⟨shown, hs⟩ := handleFiles_eq u batch ids hb
      rw [hs]
      split
      · exact ⟨rfl, h⟩
      · rename_i hq
        refine ⟨rfl, ?_⟩
        have hl : (tagged ids (validOf u.options batch)).length =
            (validOf u.options batch).length := by
          simp [tagged, List.enum]
        simp only [List.length_append, hl]
        omega
  | removeFile fileId =>
    exact ⟨(removeFile_queue u fileId).2, le_trans (removeFile_queue_length_le u fileId) h⟩
  | processUploads now =>
    obtain ⟨hq, ho⟩ := processUploads_queue u now
    simp only [JournalUploader.step]
    rw [hq, ho]
    exact ⟨rfl, h⟩
  | clickProcess now =>
    obtain ⟨hq, ho⟩ := processUploads_queue u now
    simp only [JournalUploader.step, JournalUploader.clickProcess]
    split
    · exact ⟨rfl, h⟩
    · rw [hq, ho]
      exact ⟨rfl, h⟩
  | settle k outcome =>
    simp only [JournalUploader.step, JournalUploader.settle]
    split
    · obtain ⟨ho, hq⟩ := afterFetch_frame { u with inFlight := u.inFlight.eraseIdx k } outcome
      refine ⟨ho, ?_⟩
      rcases hq with hq | hq
      · rw [hq]
        exact h
      · rw [hq]
        exact Nat.zero_le _
    · exact ⟨rfl, h⟩

theorem run_invariant (u : JournalUploader) (events : List Event)
    (h : u.uploadQueue.length ≤ u.options.maxFiles) :
    (u.run events).options = u.options ∧
    (u.run events).uploadQueue.length ≤ u.options.maxFiles := by
  induction events generalizing u with
  | nil => exact ⟨rfl, h⟩
  | cons event rest ih =>
    obtain ⟨ho, hq⟩ := step_invariant u event h
    have hrun : u.run (event :: rest) = (u.step event).run rest := rfl
    rw [hrun]
    have := ih (u.step event) (by rw [ho]; exact hq)
    rw [ho] at this
    exact this

/-- C4. Queue-length invariant: from the widget the constructor builds, after every
finite sequence of `handleFiles`, `removeFile`, `processUploads`, process-button clicks
and settlings (success or failure) of requests in flight, the upload queue holds at most
`maxFiles` entries. It holds for every `maxFiles`, positive or not. -/
theorem queue_length_le_maxFiles (options : RawOptions) (events : List Event) :
    ((JournalUploader.new options).run events).uploadQueue.length ≤
      (resolveOptions options).maxFiles :=
  (run_invariant (JournalUploader.new options) events (Nat.zero_le _)).2

/-! ## Submission -/

/-- C5 (the code departs from it). After the user has added a file, clicked the process
button, added a second file and clicked again, two requests are in flight: `handleFiles`
recomputed `processButton.disabled` from the queue's length alone and so re-enabled the
button that `processUploads` had disabled for the pending request. Removing one of two
queued files while the request is pending re-enables the button in the same way. -/
theorem second_request_while_pending :
    ((freshWidget.run (resubmitDuringRequest.take 2)).inFlight.length = 1 ∧
      (freshWidget.run (resubmitDuringRequest.take 2)).processButton.disabled = true ∧
      (freshWidget.run (resubmitDuringRequest.take 3)).inFlight.length = 1 ∧
      (freshWidget.run (resubmitDuringRequest.take 3)).processButton.disabled = false ∧
      (freshWidget.run resubmitDuringRequest).inFlight.length = 2) ∧
    ((freshWidget.run (resubmitAfterRemove.take 2)).inFlight.length = 1 ∧
      (freshWidget.run (resubmitAfterRemove.take 2)).processButton.disabled = true ∧
      (freshWidget.run (resubmitAfterRemove.take 3)).inFlight.length = 1 ∧
      (freshWidget.run (resubmitAfterRemove.take 3)).processButton.disabled = false ∧
      (freshWidget.run resubmitAfterRemove).inFlight.length = 2) := by
  decide

/-- C6. A failed submission preserves the queue: when a request in flight settles by a
transport error, by a response whose status is not ok, or by a response whose body does
not parse, the failure handler leaves the upload queue exactly as it was and
`onProcessComplete` is not invoked. -/
theorem failed_submission_preserves_queue (u : JournalUploader) (k : Nat)
    (e : String) (json : Except String Json) :
    ((u.settle k (.rejected e)).uploadQueue = u.uploadQueue ∧
      (u.settle k (.rejected e)).completed = u.completed) ∧
    ((u.settle k (.response false json)).uploadQueue = u.uploadQueue ∧
      (u.settle k (.response false json)).completed = u.completed) ∧
    ((u.settle k (.response true (.error e))).uploadQueue = u.uploadQueue ∧
      (u.settle k (.response true (.error e))).completed = u.completed) ∧
    (u.handleUploadError e).uploadQueue = u.uploadQueue ∧
    (u.handleUploadError e).completed = u.completed := by
  refine ⟨?_, ?_, ?_, rfl, rfl⟩ <;>
    · unfold JournalUploader.settle
      split
      · exact ⟨rfl, rfl⟩
      · exact ⟨rfl, rfl⟩

/-- C7, refuted as stated: for the parsed body `null` and a widget whose
`onProcessComplete` is set, `handleSuccessfulUpload(null)` empties the queue and then
throws at `data.processed_pages`; the callback has not been called, neither by the method
nor by the promise chain of `uploadToBackend`, whose catch handler runs instead. -/
theorem handleSuccessfulUpload_null_skips_callback :
    fullWidgetWithCallback.options.onProcessComplete.isSome = true ∧
    (fullWidgetWithCallback.handleSuccessfulUpload Json.null).1.uploadQueue = [] ∧
    (fullWidgetWithCallback.handleSuccessfulUpload Json.null).2.isSome = true ∧
    (fullWidgetWithCallback.handleSuccessfulUpload Json.null).1.completed = [] ∧
    (fullWidgetWithCallback.handleSuccessfulUpload Json.null).1.completed ≠
      fullWidgetWithCallback.completed ++ [Json.null] ∧
    (fullWidgetWithCallback.afterFetch (.response true (.ok Json.null))).completed = [] := by
  refine ⟨rfl, rfl, rfl, rfl, ?_, rfl⟩
  intro h
  have hl := congrArg List.length h
  revert hl
  decide

/-- C7, amended. A successful submission clears the queue and forwards the response: for
every widget and every parsed response `data` other than `null`,
`handleSuccessfulUpload(data)` leaves an empty upload queue; when `onProcessComplete` is
configured it has been called exactly once more, with `data` itself, and when it is not
configured no call is recorded. The same holds after the promise chain of
`uploadToBackend` has run on that response, whether the callback returned or threw. -/
theorem handleSuccessfulUpload_clears_and_forwards (u : JournalUploader) (data : Json)
    (hdata : data ≠ Json.null) :
    (u.handleSuccessfulUpload data).1.uploadQueue = [] ∧
    (u.handleSuccessfulUpload data).1.completed =
      (if u.options.onProcessComplete.isSome then u.completed ++ [data] else u.completed) ∧
    (u.afterFetch (.response true (.ok data))).uploadQueue = [] ∧
    (u.afterFetch (.response true (.ok data))).completed =
      (if u.options.onProcessComplete.isSome then u.completed ++ [data] else u.completed) := by
  have hprop : ∃ pages, data.getProp "processed_pages" = .ok pages := by
    cases data with
    | null => exact absurd rfl hdata
    | bool b => exact ⟨_, rfl⟩
    | num n => exact ⟨_, rfl⟩
    | str s => exact ⟨_, rfl⟩
    | arr items => exact ⟨_, rfl⟩
    | obj fields => exact ⟨_, rfl⟩
  obtain ⟨pages, hp⟩ := hprop
  have hcompleted : (u.handleSuccessfulUpload data).1.completed =
      (if u.options.onProcessComplete.isSome then u.completed ++ [data] else u.completed) := by
    unfold JournalUploader.handleSuccessfulUpload
    cases hc : u.options.onProcessComplete with
    | none => simp [hp, hc, JournalUploader.showSuccess, JournalUploader.showNotification]
    | some callback =>
      simp [hp, hc, JournalUploader.showSuccess, JournalUploader.showNotification]
  have hqueue := (handleSuccessfulUpload_frame u data).1
  refine ⟨hqueue, hcompleted, ?_, ?_⟩
  · simp only [JournalUploader.afterFetch]
    cases hr : u.handleSuccessfulUpload data with
    | mk u1 thrown =>
      rw [hr] at hqueue
      cases thrown with
      | none => exact hqueue
      | some e => exact hqueue
  · simp only [JournalUploader.afterFetch]
    cases hr : u.handleSuccessfulUpload data with
    | mk u1 thrown =>
      rw [hr] at hcompleted
      cases thrown with
      | none => exact hcompleted
      | some e => exact hcompleted

/-- C7 at the scenario of the specification: a queue of two files, a callback, and the
response whose `results.texts` is `["hello"]`. -/
theorem handleSuccessfulUpload_clears_and_forwards_witness :
    fullWidgetWithCallback.uploadQueue.length = 2 ∧
    (fullWidgetWithCallback.handleSuccessfulUpload helloResponse).1.uploadQueue = [] ∧
    (fullWidgetWithCallback.handleSuccessfulUpload helloResponse).1.completed =
      (if fullWidgetWithCallback.options.onProcessComplete.isSome
        then fullWidgetWithCallback.completed ++ [helloResponse]
        else fullWidgetWithCallback.completed) ∧
    (fullWidgetWithCallback.afterFetch (.response true (.ok helloResponse))).uploadQueue = [] ∧
    (fullWidgetWithCallback.afterFetch (.response true (.ok helloResponse))).completed =
      (if fullWidgetWithCallback.options.onProcessComplete.isSome
        then fullWidgetWithCallback.completed ++ [helloResponse]
        else fullWidgetWithCallback.completed) :=
  ⟨by decide,
    handleSuccessfulUpload_clears_and_forwards fullWidgetWithCallback helloResponse
      (by simp [helloResponse])⟩

theorem appendPages_eq (formData : FormData) (index : Nat) (queue : List QueuedFile) :
    appendPages formData index queue =
      formData ++ (queue.enumFrom index).map
        (fun p => ("journal_page_" ++ toString p.1, FormValue.file p.2)) := by
  induction queue generalizing formData index with
  | nil => simp [appendPages]
  | cons file rest ih =>
    simp only [appendPages]
    rw [ih]
    simp [List.enumFrom]

/-- C8. Request construction: for a non-empty upload queue of `n` files, `processUploads`
sends exactly one request, whose payload has `n + 2` fields: field `i` is
`journal_page_i` holding the file at position `i` of the queue, for every `i < n`, then
comes `page_count` holding `n` as a string, then `timestamp`. For the empty queue
`processUploads` leaves the whole state, requests in flight included, as it was. -/
theorem processUploads_payload (u : JournalUploader) (now : String) :
    (u.uploadQueue ≠ [] →
      ∃ payload : FormData,
        (u.processUploads now).inFlight = u.inFlight ++ [payload] ∧
        payload =
          u.uploadQueue.enum.map
              (fun p => ("journal_page_" ++ toString p.1, FormValue.file p.2)) ++
            [("page_count", FormValue.text (toString u.uploadQueue.length)),
              ("timestamp", FormValue.text now)] ∧
        payload.length = u.uploadQueue.length + 2 ∧
        (∀ (i : Nat) (file : QueuedFile), u.uploadQueue[i]? = some file →
          payload[i]? = some ("journal_page_" ++ toString i, FormValue.file file)) ∧
        payload[u.uploadQueue.length]? =
          some ("page_count", FormValue.text (toString u.uploadQueue.length)) ∧
        payload[u.uploadQueue.length + 1]? = some ("timestamp", FormValue.text now)) ∧
    (u.uploadQueue = [] → u.processUploads now = u) := by
  constructor
  · intro hne
    have hlen : ¬ u.uploadQueue.length = 0 := fun h => hne (List.length_eq_zero.mp h)
    refine ⟨_, ?_, rfl, ?_, ?_, ?_, ?_⟩
    · unfold JournalUploader.processUploads JournalUploader.uploadToBackend
      simp only [beq_iff_eq, hlen, if_false]
      rw [appendPages_eq]
      simp [List.enum]
    · simp [List.enum]
    · intro i file hi
      have hlt : i < u.uploadQueue.length := by
        by_contra hge
        rw [List.getElem?_eq_none (by omega)] at hi
        exact absurd hi (by simp)
      rw [List.getElem?_append_left (by simp [List.enum]; exact hlt)]
      simp [List.enum, List.getElem?_map, List.getElem?_enumFrom, hi]
    · rw [List.getElem?_append_right (by simp [List.enum])]
      simp [List.enum]
    · rw [List.getElem?_append_right (by simp [List.enum])]
      simp [List.enum]
  · intro hnil
    unfold JournalUploader.processUploads
    simp [hnil]

/-- C8 on a queue of two files. -/
theorem processUploads_payload_witness :
    (fullWidget.processUploads "2024-01-01T00:00:00.000Z").inFlight =
      [[("journal_page_0", FormValue.file ⟨smallPng, "file-a0"⟩),
        ("journal_page_1", FormValue.file ⟨limitPng, "file-a1"⟩),
        ("page_count", FormValue.text "2"),
        ("timestamp", FormValue.text "2024-01-01T00:00:00.000Z")]] ∧
    freshWidget.uploadQueue = [] ∧
    (freshWidget.processUploads "2024-01-01T00:00:00.000Z").inFlight = freshWidget.inFlight := by
  obtain ⟨payload, hsent, hpayload, -⟩ :=
    (processUploads_payload fullWidget "2024-01-01T00:00:00.000Z").1 (by decide)
  have hempty := (processUploads_payload freshWidget "2024-01-01T00:00:00.000Z").2 (by decide)
  refine ⟨?_, by decide, by rw [hempty]⟩
  rw [hsent, hpayload]
  decide

/-! ## Removing a file -/

/-- C9, refuted as stated: for the id that is one double quote, which no entry of the
queue carries, `removeFile` throws: the selector `.preview-item[data-file-id="""]` is
rejected by `querySelector`. The queue is left as it was. -/
theorem removeFile_throws_on_quote :
    (∀ file ∈ fullWidget.uploadQueue, file.id ≠ quoteId) ∧
    (fullWidget.removeFile quoteId).2.isSome = true ∧
    (fullWidget.removeFile quoteId).1.uploadQueue = fullWidget.uploadQueue := by
  decide

/-- C9, amended. `removeFile` is idempotent: for every id, calling `removeFile(id)` twice
leaves the same upload queue and the same process button (its `disabled` flag included)
as calling it once, and when no entry of the queue carries the id the call leaves the
queue as it was. For an id that holds no double quote, backslash or line break, as every
id `createPreview` generates, the call raises no error. -/
theorem removeFile_idempotent (u : JournalUploader) (fileId : String) :
    ((u.removeFile fileId).1.removeFile fileId).1.uploadQueue =
      (u.removeFile fileId).1.uploadQueue ∧
    ((u.removeFile fileId).1.removeFile fileId).1.processButton =
      (u.removeFile fileId).1.processButton ∧
    ((∀ file ∈ u.uploadQueue, file.id ≠ fileId) →
      (u.removeFile fileId).1.uploadQueue = u.uploadQueue) ∧
    (plainId fileId = true →
      (u.removeFile fileId).2 = none ∧ ((u.removeFile fileId).1.removeFile fileId).2 = none) := by
  have hq : ((u.removeFile fileId).1.removeFile fileId).1.uploadQueue =
      (u.removeFile fileId).1.uploadQueue := by
    rw [(removeFile_queue _ fileId).1, (removeFile_queue u fileId).1, List.filter_filter]
    simp
  refine ⟨hq, ?_, ?_, ?_⟩
  · cases hplain : plainId fileId with
    | false => simp [JournalUploader.removeFile, hplain]
    | true => simp [JournalUploader.removeFile, hplain, List.filter_filter]
  · intro habsent
    rw [(removeFile_queue u fileId).1, List.filter_eq_self]
    intro file hfile
    simpa using habsent file hfile
  · intro hplain
    simp [JournalUploader.removeFile, hplain]

/-- C9 on a queue of two files: removing an id that is present twice, and removing an id
that no entry carries. -/
theorem removeFile_idempotent_witness :
    ((fullWidget.removeFile "file-a0").1.removeFile "file-a0").1.uploadQueue =
      (fullWidget.removeFile "file-a0").1.uploadQueue ∧
    (fullWidget.removeFile "file-a0").1.uploadQueue = [⟨limitPng, "file-a1"⟩] ∧
    (fullWidget.removeFile "file-zz").1.uploadQueue = fullWidget.uploadQueue ∧
    (fullWidget.removeFile "file-zz").2 = none :=
  ⟨(removeFile_idempotent fullWidget "file-a0").1, by decide,
    (removeFile_idempotent fullWidget "file-zz").2.2.1 (by decide),
    ((removeFile_idempotent fullWidget "file-zz").2.2.2 (by decide)).1⟩

/-! ## The results view -/

theorem populateTranscriptionTab_no_results (v : ResultsView) (data : Json)
    (results : JsValue) (hr : data.getProp "results" = .ok results)
    (hnone : results = none ∨ results = some .null) :
    populateTranscriptionTab v data = (v, none) := by
  unfold populateTranscriptionTab
  cases getElementById v.nodes "transcription" with
  | none => rfl
  | some pane => rcases hnone with h | h <;> subst h <;> simp [hr, truthy]

theorem populateTranscriptionTab_no_texts (v : ResultsView) (data r : Json) (texts : JsValue)
    (hr : data.getProp "results" = .ok (some r)) (ht : r.getProp "texts" = .ok texts)
    (hnone : texts = none ∨ texts = some .null) :
    populateTranscriptionTab v data = (v, none) := by
  unfold populateTranscriptionTab
  cases getElementById v.nodes "transcription" with
  | none => rfl
  | some pane =>
    simp only [hr]
    by_cases htr : truthy (some r) = true
    · rcases hnone with h | h <;> subst h <;> simp [htr, ht, truthy]
    · simp [htr]

set_option maxHeartbeats 2000000 in
set_option maxRecDepth 100000 in
theorem helloView_clickTab (j k : Fin 4) :
    (helloView.clickTab j.val).clickTab k.val = helloView.clickTab k.val := by
  fin_cases j <;> fin_cases k <;> rfl

set_option maxRecDepth 100000 in
theorem helloView_clicks (ks : List (Fin 4)) :
    helloView.clicks ks = helloView.clickTab ((ks.getLast?.map Fin.val).getD 0) := by
  induction ks using List.reverseRecOn with
  | nil => decide
  | append_singleton init k ih =>
    unfold ResultsView.clicks at ih ⊢
    have hlast : (init ++ [k]).getLast? = some k := by simp
    rw [List.foldl_append, ih, hlast]
    cases hinit : init.getLast? with
    | none => exact helloView_clickTab 0 k
    | some j => exact helloView_clickTab j k

set_option maxRecDepth 100000 in
theorem helloView_single_active_tab (ks : List (Fin 4)) :
    tabMarks (helloView.clicks ks) =
      [("transcription", (ks.getLast?.map Fin.val).getD 0 == 0),
        ("themes", (ks.getLast?.map Fin.val).getD 0 == 1),
        ("insights", (ks.getLast?.map Fin.val).getD 0 == 2),
        ("organization", (ks.getLast?.map Fin.val).getD 0 == 3)] ∧
    paneMarks (helloView.clicks ks) =
      [(27, some "transcription", (ks.getLast?.map Fin.val).getD 0 == 0),
        (46, some "themes", (ks.getLast?.map Fin.val).getD 0 == 1),
        (49, some "insights", (ks.getLast?.map Fin.val).getD 0 == 2),
        (52, some "organization", (ks.getLast?.map Fin.val).getD 0 == 3)] := by
  rw [helloView_clicks]
  have hlast : ∃ k : Fin 4, (ks.getLast?.map Fin.val).getD 0 = k.val := by
    cases ks.getLast? with
    | none => exact ⟨0, rfl⟩
    | some k => exact ⟨k, rfl⟩
  obtain ⟨k, hk⟩ := hlast
  rw [hk]
  clear hk
  revert k
  decide

/-- C10 (the code departs from it). On a page whose results container is preceded by a
heading, for the response whose only text is
`<div class="tab-pane active" id="themes">x</div>`, `displayJournalAnalysis` returns
normally and the text is read as markup: the transcription pane (position 27) holds an
element with class `tab-pane` and id `themes` (position 39, followed by the text `x`),
so two elements carry `tab-pane active` before any click. After a click on the Themes
tab that element is the first one with id `themes`, `getElementById` finds it and it
gets the active mark; the themes pane of the view (position 48) is not active, nor is
any other pane of the four. For the response whose text is `hello` the same click
marks the themes pane. -/
theorem injected_pane_takes_active_mark :
    (displayJournalAnalysis samplePage injectedPaneResponse).2 = none ∧
    (displayJournalAnalysis samplePage injectedPaneResponse).1.map
        (fun v => (v.nodes.drop 39).take 3) =
      some [Node.element "div" ["tab-pane", "active"] [("id", "themes")], Node.text "x",
        Node.endTag "div"] ∧
    (displayJournalAnalysis samplePage injectedPaneResponse).1.map paneMarks =
      some [(27, some "transcription", true), (39, some "themes", true),
        (48, some "themes", false), (51, some "insights", false),
        (54, some "organization", false)] ∧
    (displayJournalAnalysis samplePage injectedPaneResponse).1.map
        (fun v => tabMarks (v.clickTab 1)) =
      some [("transcription", false), ("themes", true), ("insights", false),
        ("organization", false)] ∧
    (displayJournalAnalysis samplePage injectedPaneResponse).1.map
        (fun v => paneMarks (v.clickTab 1)) =
      some [(27, some "transcription", false), (39, some "themes", true),
        (48, some "themes", false), (51, some "insights", false),
        (54, some "organization", false)] ∧
    (displayJournalAnalysis samplePage helloResponse).1.map
        (fun v => paneMarks (v.clickTab 1)) =
      some [(27, some "transcription", false), (46, some "themes", true),
        (49, some "insights", false), (52, some "organization", false)] := by
  decide

/-- C11 (the code departs from it). The text is interpolated into `innerHTML` as it is,
so markup in it is read as markup. For the response whose only text is
`x<div class="transcription-item">y</div>` the page holds two transcription items
(positions 32 and 40) for one string. For the response whose only text is `<b>hi</b>`
the `transcription-text` element (position 38) holds an element `b` with the text `hi`,
and no text node of the page is `<b>hi</b>`. For the text `hello` there is one item,
titled `Page 1`, whose text is `hello`; for a response without `results` and for one
whose `results` holds no `texts` the transcription pane stays empty; no call throws. -/
theorem markup_in_text_is_parsed :
    ((displayJournalAnalysis samplePage nestedItemResponse).2 = none ∧
      (displayJournalAnalysis samplePage nestedItemResponse).1.map
          (fun v => elementsWithClass "transcription-item" v.nodes) = some [32, 40]) ∧
    ((displayJournalAnalysis samplePage boldResponse).2 = none ∧
      (displayJournalAnalysis samplePage boldResponse).1.map
          (fun v => (v.nodes.drop 38).take 5) =
        some [Node.element "div" ["transcription-text"] [], Node.element "b" [] [],
          Node.text "hi", Node.endTag "b", Node.endTag "div"] ∧
      (displayJournalAnalysis samplePage boldResponse).1.map
          (fun v => v.nodes.contains (Node.text "<b>hi</b>")) = some false) ∧
    ((displayJournalAnalysis samplePage helloResponse).2 = none ∧
      (displayJournalAnalysis samplePage helloResponse).1.map
          (fun v => elementsWithClass "transcription-item" v.nodes) = some [32] ∧
      (displayJournalAnalysis samplePage helloResponse).1.map
          (fun v => (v.nodes.drop 28).take 15) =
        some [Node.element "h2" [] [], Node.text "Transcribed Journal Pages", Node.endTag "h2",
          Node.text "\n      ", Node.element "div" ["transcription-item"] [],
          Node.text "\n        ", Node.element "h3" [] [], Node.text "Page 1",
          Node.endTag "h3", Node.text "\n        ",
          Node.element "div" ["transcription-text"] [], Node.text "hello", Node.endTag "div",
          Node.text "\n      ", Node.endTag "div"]) ∧
    ((displayJournalAnalysis samplePage noResultsResponse).2 = none ∧
      (displayJournalAnalysis samplePage noTextsResponse).2 = none ∧
      (displayJournalAnalysis samplePage noResultsResponse).1.map
          (fun v => (v.nodes.drop 27).take 2) =
        some [Node.element "div" ["tab-pane", "active"] [("id", "transcription")],
          Node.endTag "div"] ∧
      (displayJournalAnalysis samplePage noTextsResponse).1.map
          (fun v => (v.nodes.drop 27).take 2) =
        some [Node.element "div" ["tab-pane", "active"] [("id", "transcription")],
          Node.endTag "div"]) := by
  decide

end JournalAI
